import Mathlib

/-!
Verification of the PolicyEngine country service core: a shallow embedding of
`policyengine/country/country.py` (simulation pair builder, household
computation walker, population-reform latency windows) and
`policyengine/country/openfisca/reforms.py` (parametric reforms and the
parameter path resolver), with theorems settling the specification claims.
-/

namespace PE

/-! ### Generic string-keyed association lists

Python dictionaries are modelled as association lists of key/value pairs in
insertion order; lookup returns the first entry with the given key.
-/

def lookupA {α : Type} : List (String × α) → String → Option α
  | [], _ => none
  | kv :: t, q => if kv.1 = q then some kv.2 else lookupA t q

def upsertA {α : Type} : List (String × α) → String → (α → α) → α → List (String × α)
  | [], q, f, d => [(q, f d)]
  | kv :: t, q, f, d => if kv.1 = q then (kv.1, f kv.2) :: t else kv :: upsertA t q f d

/-! ### Simulation pair builder (`create_microsimulations`, country.py lines 102-124)

`PolicyReform` is the compiled reform object produced by `create_reform`; the
builder reads its `edits_baseline` flag and its `baseline` / `reform` payloads.
Microsimulation construction is modelled by allocating a fresh instance
identifier and recording the reform payload the instance was built from, so
that instance identity (`is`-identity of Python objects) is decidable.
-/

structure PolicyReform (R : Type) where
  edits_baseline : Bool
  baseline : R
  reform : R
deriving DecidableEq

structure Sim (R : Type) where
  id : Nat
  builtFrom : R
deriving DecidableEq

structure CountryState (R : Type) where
  default_reform : R
  baseline_microsimulation : Option (Sim R)
  next_id : Nat
deriving DecidableEq

def buildSim {R : Type} (s : CountryState R) (arg : R) : Sim R × CountryState R :=
  (⟨s.next_id, arg⟩, { s with next_id := s.next_id + 1 })

def create_microsimulations {R : Type} (s : CountryState R) (pr : PolicyReform R) :
    (Sim R × Sim R) × CountryState R :=
  if !pr.edits_baseline && s.baseline_microsimulation.isNone then
    let bs := buildSim s s.default_reform
    let s2 := { bs.2 with baseline_microsimulation := some bs.1 }
    let rs := buildSim s2 pr.reform
    ((bs.1, rs.1), rs.2)
  else if pr.edits_baseline then
    let bs := buildSim s pr.baseline
    let rs := buildSim bs.2 pr.reform
    ((bs.1, rs.1), rs.2)
  else
    let b := s.baseline_microsimulation.getD ⟨0, s.default_reform⟩
    let rs := buildSim s pr.reform
    ((b, rs.1), rs.2)

/-! ### Population reform latency windows (country.py lines 84-87, 218-229, 237, 278-292) -/

/-- Python substring containment `needle in hay`, as used at country.py line 237
(`"baseline_" in param`). -/
def pyInStr (needle hay : String) : Bool :=
  (List.range (hay.toList.length + 1)).any fun i =>
    decide ((hay.toList.drop i).take needle.toList.length = needle.toList)

/-- Python prefix test `hay.startswith(needle)`, used to state the claims about
`baseline_`-prefixed keys. -/
def pyStartsWith (needle hay : String) : Bool :=
  decide (hay.toList.take needle.toList.length = needle.toList)

/-- The classification at country.py line 237:
`edits_baseline = any(["baseline_" in param for param in params])`. -/
def edits_baseline_flag (params : List String) : Bool :=
  params.any fun k => pyInStr "baseline_" k

structure LatencyWindows where
  reform_only : List ℚ
  reform_and_baseline : List ℚ
deriving DecidableEq

/-- country.py lines 84-87: both windows start as the literal one-element list. -/
def initial_recent_calls : LatencyWindows := ⟨[10], [10]⟩

/-- The trimming applied by country.py lines 278-284: `pop(0)` when the window
holds more than 10 entries. -/
def trimWindow (w : List ℚ) : List ℚ :=
  if w.length > 10 then w.drop 1 else w

/-- The latency bookkeeping of one `population_reform` call (country.py lines
237 and 278-292): classify the request keys, trim both windows, then append the
elapsed time to the window selected by the classification. -/
def population_reform_update (params : List String) (elapsed : ℚ) (w : LatencyWindows) :
    LatencyWindows :=
  let eb := edits_baseline_flag params
  let ro := trimWindow w.reform_only
  let rb := trimWindow w.reform_and_baseline
  if eb then ⟨ro, rb ++ [elapsed]⟩ else ⟨ro ++ [elapsed], rb⟩

def applyCalls (calls : List (List String × ℚ)) (w : LatencyWindows) : LatencyWindows :=
  calls.foldl (fun acc c => population_reform_update c.1 c.2 acc) w

/-- Arithmetic mean as computed by `np.average` on a nonempty list. -/
def npAverage (l : List ℚ) : ℚ := l.sum / (l.length : ℚ)

/-- country.py lines 218-229. -/
def population_reform_runtime (w : LatencyWindows) : ℚ × ℚ :=
  (npAverage w.reform_only, npAverage w.reform_and_baseline)

/-! ### Household computation walker (`calculate`, country.py lines 164-216)

The household document is the nested mapping entity-plural → entity-id →
variable → period → value required by the API; the dpath glob `*/*/*/*` with
`afilter=lambda t: t is None` selects exactly the depth-4 leaves whose value is
`None`, modelled here as leaves of type `Option HVal` with `none` for `null`.
Raw per-entity engine values are either a decoded enum element, a number, a
string or a flat numeric sequence; numeric scalars are rationals (the float
string round-trip of line 201 is value-preserving in serialized output).
-/

inductive EngineVal where
  | enumv (name : String)
  | numv (q : ℚ)
  | strv (s : String)
  | arrv (xs : List ℚ)
deriving DecidableEq, Repr

/-- Converted leaf values written back into the household document. `hdict` is
the single-entry mapping produced by the truncation workaround of line 210. -/
inductive HVal where
  | hstr (s : String)
  | hnum (q : ℚ)
  | hlist (xs : List ℚ)
  | hdict (period : String) (q : ℚ)
deriving DecidableEq, Repr

inductive ValueKind where
  | enumK
  | floatK
  | strK
  | otherK
deriving DecidableEq, Repr

structure VariableInfo where
  value_type : ValueKind

/-- The pieces of the tax-benefit system consulted by `calculate`:
`system.get_variable` (country.py line 193), returning `none` for an unknown
variable name (which makes the subsequent attribute access raise). -/
structure CountrySystem where
  get_variable : String → Option VariableInfo

/-- The simulation engine interface used by `calculate`: `simulation.calculate`
(line 194) yielding one value per entity row, and the composition of
`get_population`/`get_index` (lines 195-196). `none` models a raised exception
(unknown variable, unresolvable period or entity id). -/
structure Simulation where
  calcVar : String → String → Option (List EngineVal)
  entity_index : String → String → Option Nat

/-- Python `str(...)` of a raw engine value (line 203). -/
def engineValStr : EngineVal → String
  | .enumv n => n
  | .numv q => toString q
  | .strv s => s
  | .arrv xs => toString xs

/-- The value-kind dispatch of country.py lines 198-205. A combination the
source cannot coerce (e.g. `.decode()` on a non-enum array) is a raised
exception, modelled as `none`. -/
def convertResult : ValueKind → EngineVal → Option HVal
  | .enumK, .enumv n => some (.hstr n)
  | .enumK, _ => none
  | .floatK, .numv q => some (.hnum q)
  | .floatK, _ => none
  | .strK, v => some (.hstr (engineValStr v))
  | .otherK, .enumv n => some (.hstr n)
  | .otherK, .numv q => some (.hnum q)
  | .otherK, .strv s => some (.hstr s)
  | .otherK, .arrv xs => some (.hlist xs)

/-- The defensive truncation of country.py lines 207-210: a sequence result of
length greater than 2000 collapses to the single-entry mapping
`period ↦ last element`. -/
def truncateResult (period : String) (v : HVal) : HVal :=
  match v with
  | .hlist xs => if xs.length > 2000 then .hdict period (xs.getLastD 0) else v
  | _ => v

/-- One requested computation: a depth-4 document path
entity-plural/entity-id/variable/period (country.py line 192). -/
structure Path4 where
  entity_plural : String
  entity_id : String
  variable_name : String
  period : String
deriving DecidableEq, Repr

/-- The body of the loop at country.py lines 190-210 for one requested path:
variable lookup, engine computation, row-index resolution, extraction,
kind-directed conversion and truncation. `none` is a raised exception. -/
def computeOne (sys : CountrySystem) (sim : Simulation) (p : Path4) : Option HVal := do
  let vinfo ← sys.get_variable p.variable_name
  let result ← sim.calcVar p.variable_name p.period
  let idx ← sim.entity_index p.entity_plural p.entity_id
  let elem ← result.get? idx
  let conv ← convertResult vinfo.value_type elem
  some (truncateResult p.period conv)

abbrev PeriodMap := List (String × Option HVal)
abbrev VarMap := List (String × PeriodMap)
abbrev EntityMap := List (String × VarMap)
abbrev Household := List (String × EntityMap)

abbrev RPeriodMap := List (String × HVal)
abbrev RVarMap := List (String × RPeriodMap)
abbrev REntityMap := List (String × RVarMap)
abbrev CompResults := List (String × REntityMap)

/-- The dpath search of country.py lines 182-187: every depth-4 path whose
leaf is `null`, in document order. -/
def requestedComputations (hh : Household) : List Path4 :=
  hh.flatMap fun eem => eem.2.flatMap fun ivm => ivm.2.flatMap fun vpm =>
    (vpm.2.filter fun kv => kv.2.isNone).map fun kv =>
      ⟨eem.1, ivm.1, vpm.1, kv.1⟩

/-- `dpath.util.new(computation_results, path, v)` (country.py line 212):
create the nested structure along `path` and set the leaf to `v`. -/
def newPath (res : CompResults) (p : Path4) (v : HVal) : CompResults :=
  upsertA res p.entity_plural
    (fun em => upsertA em p.entity_id
      (fun vm => upsertA vm p.variable_name
        (fun pm => upsertA pm p.period (fun _ => v) v) [])
      [])
    []

def lookupRes (res : CompResults) (p : Path4) : Option HVal :=
  (lookupA res p.entity_plural).bind fun em =>
  (lookupA em p.entity_id).bind fun vm =>
  (lookupA vm p.variable_name).bind fun pm =>
  lookupA pm p.period

def lookupHH (hh : Household) (p : Path4) : Option (Option HVal) :=
  (lookupA hh p.entity_plural).bind fun em =>
  (lookupA em p.entity_id).bind fun vm =>
  (lookupA vm p.variable_name).bind fun pm =>
  lookupA pm p.period

/-- Merge-value helper: the value a dict-merge gives a key present in the
destination (overwritten from the source if the source also has it). -/
def mergeVal {α β : Type} (m : α → β → α) (src : List (String × β)) (k : String) (a : α) : α :=
  match lookupA src k with
  | some b => m a b
  | none => a

/-- `dpath.util.merge(dst, src)` at one nesting level: destination keys keep
their positions (recursively merged where the source also has the key), and
source-only keys are appended in source order. -/
def mergeAssoc {α β : Type} (m : α → β → α) (inj : β → α)
    (dst : List (String × α)) (src : List (String × β)) : List (String × α) :=
  (dst.map fun ka => (ka.1, mergeVal m src ka.1 ka.2)) ++
    ((src.filter fun kb => (lookupA dst kb.1).isNone).map fun kb => (kb.1, inj kb.2))

def injPeriod (r : RPeriodMap) : PeriodMap := r.map fun kv => (kv.1, some kv.2)

def injVar (r : RVarMap) : VarMap := r.map fun kv => (kv.1, injPeriod kv.2)

def injEntity (r : REntityMap) : EntityMap := r.map fun kv => (kv.1, injVar kv.2)

def mergePeriod (dst : PeriodMap) (src : RPeriodMap) : PeriodMap :=
  mergeAssoc (fun _ v => some v) some dst src

def mergeVar (dst : VarMap) (src : RVarMap) : VarMap :=
  mergeAssoc mergePeriod injPeriod dst src

def mergeEntity (dst : EntityMap) (src : REntityMap) : EntityMap :=
  mergeAssoc mergeVar injVar dst src

/-- `dpath.util.merge(params["household"], computation_results)` (line 214). -/
def mergeHousehold (dst : Household) (src : CompResults) : Household :=
  mergeAssoc mergeEntity injEntity dst src

/-- One iteration of the loop at country.py lines 190-212, threading the
household document explicitly to record that the loop body only ever writes
into `computation_results`. A failure carries the offending path and the
household document as it stands when the exception is raised. -/
def walkerStep (sys : CountrySystem) (sim : Simulation)
    (st : Household × CompResults) (p : Path4) :
    Except (Path4 × Household) (Household × CompResults) :=
  match computeOne sys sim p with
  | none => .error (p, st.1)
  | some v => .ok (st.1, newPath st.2 p v)

def walkerLoop (sys : CountrySystem) (sim : Simulation) :
    List Path4 → Household × CompResults → Except (Path4 × Household) (Household × CompResults)
  | [], st => .ok st
  | p :: t, st =>
    match walkerStep sys sim st p with
    | .error e => .error e
    | .ok st2 => walkerLoop sys sim t st2

/-- country.py lines 164-216: search for requested computations, run the loop
staging results in `computation_results`, and merge them into the household
document only after the whole loop has succeeded. -/
def calculate (sys : CountrySystem) (sim : Simulation) (hh : Household) :
    Except (Path4 × Household) Household :=
  match walkerLoop sys sim (requestedComputations hh) (hh, []) with
  | .error e => .error e
  | .ok st => .ok (mergeHousehold st.1 st.2)

def NodupKeys {α : Type} (l : List (String × α)) : Prop := (l.map Prod.fst).Nodup

/-- Well-formedness of a household document as a Python dict of dicts: keys
are unique at every level. -/
def WFHousehold (hh : Household) : Prop :=
  NodupKeys hh ∧ ∀ eem ∈ hh, NodupKeys eem.2 ∧ ∀ ivm ∈ eem.2, NodupKeys ivm.2 ∧
    ∀ vpm ∈ ivm.2, NodupKeys vpm.2

instance (hh : Household) : Decidable (WFHousehold hh) := by
  unfold WFHousehold NodupKeys
  infer_instance

/-! ### Parametric reforms and the parameter path resolver
(`parametric`, reforms.py lines 73-113)

A parameter tree node has named children and an optional indexed bracket
list, exactly the two accesses `node.children[name]` and
`node.children[name].brackets[index]` performed by `modifier_fn`.
-/

inductive ParamNode where
  | mk (children : List (String × ParamNode)) (brackets : List ParamNode)

def ParamNode.children : ParamNode → List (String × ParamNode)
  | .mk c _ => c

def ParamNode.brackets : ParamNode → List ParamNode
  | .mk _ b => b

inductive ResolveErr where
  | invalidSyntax
  | parameterNotFound (segment : String)
deriving DecidableEq, Repr

/-- Splitting a character list at every occurrence of a separator character;
Python `s.split(sep)` for the single-character separators used by the source
(`.`, `[` and `:`). -/
def splitChar (sep : Char) : List Char → List (List Char)
  | [] => [[]]
  | c :: rest =>
    let r := splitChar sep rest
    if c = sep then [] :: r else (c :: r.headD []) :: r.tail

def pySplit (sep : Char) (s : String) : List String :=
  (splitChar sep s.toList).map fun cs => String.mk cs

/-- Decimal digits to a natural number; `none` unless the list is a nonempty
run of digits. -/
def pyNat (cs : List Char) : Option Nat :=
  if cs = [] then none
  else if cs.all fun c => c.isDigit then
    some (cs.foldl (fun acc c => acc * 10 + (c.toNat - 48)) 0)
  else none

/-- Python `int(s)`: an optional sign followed by digits (whitespace and digit
group separators, which no parameter path contains, are not modelled). -/
def pyInt (s : String) : Option Int :=
  match s.toList with
  | '-' :: rest => (pyNat rest).map fun n => -(n : Int)
  | '+' :: rest => (pyNat rest).map fun n => (n : Int)
  | _ => (pyNat s.toList).map fun n => (n : Int)

/-- Python list indexing `xs[i]`, including negative indices from the end;
`none` is an `IndexError`. -/
def pyIndex {α : Type} (xs : List α) (i : Int) : Option α :=
  if 0 ≤ i then xs.get? i.toNat
  else if i.natAbs ≤ xs.length then xs.get? (xs.length - i.natAbs) else none

/-- The inner `try` of reforms.py lines 94-101: split the segment at `[`,
parse `index[:-1]` as an integer, descend into the named child and its
indexed bracket entry. Any failure raises the
`Invalid bracket syntax` ValueError. -/
def resolveBracket (node : ParamNode) (seg : String) : Except ResolveErr ParamNode :=
  match pySplit '[' seg with
  | [name, idxs] =>
    match pyInt (String.mk idxs.toList.dropLast) with
    | some i =>
      match lookupA node.children name with
      | some c =>
        match pyIndex c.brackets i with
        | some b => .ok b
        | none => .error .invalidSyntax
      | none => .error .invalidSyntax
    | none => .error .invalidSyntax
  | _ => .error .invalidSyntax

/-- The value the loop variable `name` holds when the outer `except` of
reforms.py line 102 fires: rebound to the part before `[` when the tuple
unpacking of line 95 succeeded, the original segment otherwise. -/
def rebindName (seg : String) : String :=
  match pySplit '[' seg with
  | [name, _] => name
  | _ => seg

/-- One iteration of the loop at reforms.py lines 89-105. The outer bare
`except:` catches every failure of its body - including the
`Invalid bracket syntax` ValueError raised by the inner handler - and raises
`Could not find the parameter (failed at name)`. -/
def resolveSeg (node : ParamNode) (seg : String) : Except ResolveErr ParamNode :=
  if seg.toList.contains '[' = false then
    match lookupA node.children seg with
    | some c => .ok c
    | none => .error (.parameterNotFound seg)
  else
    match resolveBracket node seg with
    | .ok c => .ok c
    | .error _ => .error (.parameterNotFound (rebindName seg))

def resolveSegs : ParamNode → List String → Except ResolveErr ParamNode
  | node, [] => .ok node
  | node, s :: t =>
    match resolveSeg node s with
    | .ok c => resolveSegs c t
    | .error e => .error e

/-- The path resolution of `modifier_fn` (reforms.py lines 87-105):
`for name in parameter.split(".")`. -/
def resolveParam (tree : ParamNode) (parameter : String) : Except ResolveErr ParamNode :=
  resolveSegs tree (pySplit '.' parameter)

def resolveResultErr (tree : ParamNode) (parameter : String) : Option ResolveErr :=
  match resolveParam tree parameter with
  | .error e => some e
  | .ok _ => none

/-- The edit `node.update(period=period, value=value)` performed at
reforms.py line 106 on the resolved node. -/
structure ParamEdit where
  period : String
  value : ℚ
deriving DecidableEq, Repr

/-- reforms.py line 74: the default `period` argument of `parametric`. -/
def parametric_default_period : String := "year:2015:20"

/-- The edit generated by `parametric(parameter, value, period)`
(reforms.py lines 73-113): resolve the dotted path, then update the resolved
node's value over `period`; the period defaults to the literal of line 74. -/
def parametric_edit (tree : ParamNode) (parameter : String) (value : ℚ)
    (period : String := parametric_default_period) : Except ResolveErr ParamEdit :=
  match resolveParam tree parameter with
  | .ok _ => .ok ⟨period, value⟩
  | .error e => .error e

/-- Years covered by an OpenFisca period literal `year:START:SIZE`: the SIZE
consecutive years starting at START (the engine interface the period string
of reforms.py line 74 is handed to). -/
def periodYears (period : String) : Option (List Nat) :=
  match pySplit ':' period with
  | [unit, start, size] =>
    if unit = "year" then
      match pyNat start.toList, pyNat size.toList with
      | some s, some n => some (List.range' s n)
      | _, _ => none
    else none
  | _ => none

/-! ### Concrete fixtures used by the witnesses -/

def compileW : Unit → PolicyReform Nat := fun _ => ⟨false, 0, 1⟩

def s0W : CountryState Nat := ⟨5, none, 0⟩

def prW : PolicyReform Nat := ⟨true, 7, 8⟩

def sW : CountryState Nat := ⟨5, some ⟨0, 3⟩, 1⟩

def sysW : CountrySystem :=
  ⟨fun v => if v = "employment_income" then some ⟨.floatK⟩ else none⟩

def simW : Simulation :=
  ⟨fun v per => if v = "employment_income" ∧ per = "2023" then some [.numv 50000] else none,
   fun ep id => if ep = "people" ∧ id = "1" then some 0 else none⟩

def hhW : Household :=
  [("people",
    [("1",
      [("employment_income", [("2023", none)]),
       ("age", [("2023", some (.hnum 30))])])])]

def outW : Household :=
  [("people",
    [("1",
      [("employment_income", [("2023", some (.hnum 50000))]),
       ("age", [("2023", some (.hnum 30))])])])]

def simF : Simulation := ⟨fun _ _ => none, fun _ _ => none⟩

def hhF : Household := [("people", [("1", [("unknown_var", [("2023", none)])])])]

def leafNode : ParamNode := ⟨[], []⟩

def testTree : ParamNode :=
  ⟨[("tax", ⟨[("rate", leafNode), ("brackets", ⟨[], [leafNode, leafNode]⟩)], []⟩)], []⟩

/-! ## Theorems -/

/-! ### Simulation pair builder: baseline reuse and invalidation -/

/-- C1: starting with no cached baseline, two sequential
`create_microsimulations` calls whose compiled reforms both have
`edits_baseline = false` build the baseline from the default policy and store
it on the first call, and the second call returns that identical cached
instance, building only the reform simulation. -/
theorem c1_baseline_reuse {P R : Type} (compile : P → PolicyReform R) (p1 p2 : P)
    (s0 : CountryState R) (h0 : s0.baseline_microsimulation = none)
    (h1 : (compile p1).edits_baseline = false)
    (h2 : (compile p2).edits_baseline = false) :
    (create_microsimulations s0 (compile p1)).2.baseline_microsimulation =
      some (create_microsimulations s0 (compile p1)).1.1 ∧
    (create_microsimulations s0 (compile p1)).1.1.builtFrom = s0.default_reform ∧
    (create_microsimulations (create_microsimulations s0 (compile p1)).2 (compile p2)).1.1 =
      (create_microsimulations s0 (compile p1)).1.1 ∧
    (create_microsimulations (create_microsimulations s0 (compile p1)).2
        (compile p2)).2.baseline_microsimulation =
      (create_microsimulations s0 (compile p1)).2.baseline_microsimulation ∧
    (create_microsimulations (create_microsimulations s0 (compile p1)).2 (compile p2)).2.next_id =
      (create_microsimulations s0 (compile p1)).2.next_id + 1 := by
  simp [create_microsimulations, buildSim, h0, h1, h2]

theorem c1_baseline_reuse_witness :
    s0W.baseline_microsimulation = none ∧
    ((create_microsimulations s0W (compileW ())).2.baseline_microsimulation =
      some (create_microsimulations s0W (compileW ())).1.1 ∧
    (create_microsimulations s0W (compileW ())).1.1.builtFrom = s0W.default_reform ∧
    (create_microsimulations (create_microsimulations s0W (compileW ())).2 (compileW ())).1.1 =
      (create_microsimulations s0W (compileW ())).1.1 ∧
    (create_microsimulations (create_microsimulations s0W (compileW ())).2
        (compileW ())).2.baseline_microsimulation =
      (create_microsimulations s0W (compileW ())).2.baseline_microsimulation ∧
    (create_microsimulations (create_microsimulations s0W (compileW ())).2
        (compileW ())).2.next_id =
      (create_microsimulations s0W (compileW ())).2.next_id + 1) :=
  ⟨rfl, c1_baseline_reuse compileW () () s0W rfl rfl rfl⟩

/-- C2: a `create_microsimulations` call whose compiled reform has
`edits_baseline = true` builds its baseline simulation from the reform's
baseline edits, leaves the cached baseline field unchanged, and never returns
the cached instance. -/
theorem c2_baseline_invalidation {R : Type} (pr : PolicyReform R) (s : CountryState R)
    (heb : pr.edits_baseline = true)
    (hwf : ∀ c, s.baseline_microsimulation = some c → c.id < s.next_id) :
    (create_microsimulations s pr).1.1.builtFrom = pr.baseline ∧
    (create_microsimulations s pr).2.baseline_microsimulation = s.baseline_microsimulation ∧
    ∀ c, s.baseline_microsimulation = some c → (create_microsimulations s pr).1.1 ≠ c := by
  refine ⟨?_, ?_, ?_⟩
  · simp [create_microsimulations, buildSim, heb]
  · simp [create_microsimulations, buildSim, heb]
  · intro c hc
    have hid : c.id < s.next_id := hwf c hc
    have hfst : (create_microsimulations s pr).1.1 = ⟨s.next_id, pr.baseline⟩ := by
      simp [create_microsimulations, buildSim, heb]
    rw [hfst]
    intro hcontra
    rw [← hcontra] at hid
    exact absurd hid (lt_irrefl _)

/-! ### Reform classification and latency windows -/

theorem pyInStr_iff (needle hay : String) :
    pyInStr needle hay = true ↔
      ∃ pre post : List Char, hay.toList = pre ++ needle.toList ++ post := by
  unfold pyInStr
  rw [List.any_eq_true]
  constructor
  · rintro ⟨i, _, hp⟩
    rw [decide_eq_true_iff] at hp
    refine ⟨hay.toList.take i, (hay.toList.drop i).drop needle.toList.length, ?_⟩
    rw [List.append_assoc]
    conv_lhs => rw [← List.take_append_drop i hay.toList]
    congr 1
    nth_rewrite 1 [← hp]
    exact (List.take_append_drop _ _).symm
  · rintro ⟨pre, post, h⟩
    refine ⟨pre.length, ?_, ?_⟩
    · rw [List.mem_range]
      have hlen := congrArg List.length h
      rw [List.length_append, List.length_append] at hlen
      omega
    · rw [decide_eq_true_iff, h, List.append_assoc, List.drop_left, List.take_left]

/-- C3 counterexample: the key `abolish_baseline_tax` is not prefixed with
`baseline_`, yet country.py line 237 classifies the request as editing the
baseline, because `"baseline_" in param` is substring containment. -/
theorem c3_prefix_claim_counterexample :
    edits_baseline_flag ["abolish_baseline_tax"] = true ∧
    ∀ k ∈ (["abolish_baseline_tax"] : List String), pyStartsWith "baseline_" k = false := by
  decide

/-- C3 (amended): a request is classified as editing the baseline, and its
elapsed time is routed to the `reform_and_baseline` window rather than
`reform_only`, if and only if at least one request key contains `baseline_`
as a substring (not necessarily as a prefix). -/
theorem c3_substring_classification (keys : List String) (elapsed : ℚ) (w : LatencyWindows) :
    (edits_baseline_flag keys = true ↔
      ∃ k ∈ keys, ∃ pre post : List Char,
        k.toList = pre ++ ("baseline_").toList ++ post) ∧
    (population_reform_update keys elapsed w).reform_and_baseline =
      (if edits_baseline_flag keys then trimWindow w.reform_and_baseline ++ [elapsed]
       else trimWindow w.reform_and_baseline) ∧
    (population_reform_update keys elapsed w).reform_only =
      (if edits_baseline_flag keys then trimWindow w.reform_only
       else trimWindow w.reform_only ++ [elapsed]) := by
  refine ⟨?_, ?_, ?_⟩
  · rw [edits_baseline_flag, List.any_eq_true]
    constructor
    · rintro ⟨k, hk, hp⟩
      exact ⟨k, hk, (pyInStr_iff _ k).mp hp⟩
    · rintro ⟨k, hk, hsub⟩
      exact ⟨k, hk, (pyInStr_iff _ k).mpr hsub⟩
  · unfold population_reform_update
    cases h : edits_baseline_flag keys <;> simp [h]
  · unfold population_reform_update
    cases h : edits_baseline_flag keys <;> simp [h]

theorem trimWindow_length_le (w : List ℚ) (h : w.length ≤ 11) :
    (trimWindow w).length ≤ 10 := by
  unfold trimWindow
  split
  · simp
    omega
  · omega

theorem applyCalls_window_bound (calls : List (List String × ℚ)) :
    ∀ w : LatencyWindows, w.reform_only.length ≤ 11 → w.reform_and_baseline.length ≤ 11 →
      (applyCalls calls w).reform_only.length ≤ 11 ∧
      (applyCalls calls w).reform_and_baseline.length ≤ 11 := by
  induction calls with
  | nil => exact fun w h1 h2 => ⟨h1, h2⟩
  | cons c t ih =>
    intro w h1 h2
    have t1 := trimWindow_length_le _ h1
    have t2 := trimWindow_length_le _ h2
    show (applyCalls t (population_reform_update c.1 c.2 w)).reform_only.length ≤ 11 ∧ _
    refine ih _ ?_ ?_ <;>
      · unfold population_reform_update
        cases h : edits_baseline_flag c.1 <;> simp [h] <;> omega

/-- C9 counterexample: starting from the initial windows, ten
`population_reform` calls leave the `reform_only` window with 11 entries,
exceeding the claimed bound of 10. -/
theorem c9_window_claim_counterexample :
    (applyCalls (List.replicate 10 (([] : List String), (1 : ℚ)))
        initial_recent_calls).reform_only.length = 11 ∧
    ¬ ((applyCalls (List.replicate 10 (([] : List String), (1 : ℚ)))
        initial_recent_calls).reform_only.length ≤ 10) := by
  decide

/-- C9 (amended): each latency window holds at most 11 entries after any
number of `population_reform` calls, and each call is trim-then-insert: it
first drops the oldest (front) entry of any window longer than 10 entries,
then appends the new elapsed time at the end of the window selected by the
baseline classification. -/
theorem c9_window_bound (calls : List (List String × ℚ)) :
    ((applyCalls calls initial_recent_calls).reform_only.length ≤ 11 ∧
     (applyCalls calls initial_recent_calls).reform_and_baseline.length ≤ 11) ∧
    ∀ ps (d : ℚ) (w : LatencyWindows),
      population_reform_update ps d w =
        (if edits_baseline_flag ps then
          ⟨trimWindow w.reform_only, trimWindow w.reform_and_baseline ++ [d]⟩
        else ⟨trimWindow w.reform_only ++ [d], trimWindow w.reform_and_baseline⟩) := by
  refine ⟨applyCalls_window_bound calls initial_recent_calls (by decide) (by decide), ?_⟩
  intro ps d w
  unfold population_reform_update
  cases h : edits_baseline_flag ps <;> simp [h]

theorem applyCalls_no_trim (ds : List ℚ) :
    ∀ ro rb : List ℚ, ro.length + ds.length ≤ 11 → rb.length ≤ 10 →
      applyCalls (ds.map fun d => (([] : List String), d)) ⟨ro, rb⟩ = ⟨ro ++ ds, rb⟩ := by
  induction ds with
  | nil =>
    intro ro rb _ _
    simp [applyCalls]
  | cons d t ih =>
    intro ro rb h1 h2
    rw [List.length_cons] at h1
    have hro : ¬ (ro.length > 10) := by omega
    have hrb : ¬ (rb.length > 10) := by omega
    show applyCalls (t.map fun d => (([] : List String), d))
        (population_reform_update [] d ⟨ro, rb⟩) = _
    have hupdate : population_reform_update [] d ⟨ro, rb⟩ = ⟨ro ++ [d], rb⟩ := by
      simp [population_reform_update, edits_baseline_flag, trimWindow, hro, hrb]
    rw [hupdate, ih (ro ++ [d]) rb (by simp; omega) h2, List.append_assoc]
    rfl

/-- C10: both latency windows are initialized to the literal one-element list
holding the number 10, `population_reform_runtime` therefore reports an
average of 10 seconds for both windows before any call, and the sentinel
entry stays at the front of the window (hence inside reported averages)
through the first ten calls. -/
theorem c10_sentinel (ds : List ℚ) (h : ds.length ≤ 10) :
    initial_recent_calls = ⟨[10], [10]⟩ ∧
    population_reform_runtime initial_recent_calls = (10, 10) ∧
    applyCalls (ds.map fun d => (([] : List String), d)) initial_recent_calls =
      ⟨10 :: ds, [10]⟩ := by
  refine ⟨rfl, by norm_num [population_reform_runtime, npAverage, initial_recent_calls], ?_⟩
  have happ := applyCalls_no_trim ds [10] [10] (by simp; omega) (by simp)
  simpa [initial_recent_calls] using happ

theorem c10_sentinel_witness :
    ([(1 : ℚ), 2, 3]).length ≤ 10 ∧
    (initial_recent_calls = ⟨[10], [10]⟩ ∧
     population_reform_runtime initial_recent_calls = (10, 10) ∧
     applyCalls (([(1 : ℚ), 2, 3]).map fun d => (([] : List String), d))
         initial_recent_calls = ⟨10 :: [(1 : ℚ), 2, 3], [10]⟩) :=
  ⟨by decide, c10_sentinel [1, 2, 3] (by decide)⟩

theorem c2_baseline_invalidation_witness :
    (create_microsimulations sW prW).1.1.builtFrom = prW.baseline ∧
    (create_microsimulations sW prW).2.baseline_microsimulation =
      sW.baseline_microsimulation ∧
    ∀ c, sW.baseline_microsimulation = some c → (create_microsimulations sW prW).1.1 ≠ c :=
  c2_baseline_invalidation prW sW rfl (by intro c hc; cases Option.some.inj hc; decide)

/-! ### Parameter path resolution errors -/

theorem resolveSeg_error_shape (node : ParamNode) (seg : String) (e : ResolveErr)
    (he : resolveSeg node seg = .error e) : ∃ s, e = .parameterNotFound s := by
  unfold resolveSeg at he
  split at he
  · cases hl : lookupA node.children seg <;> rw [hl] at he
    · simp only [Except.error.injEq] at he
      exact ⟨seg, he.symm⟩
    · simp at he
  · cases hb : resolveBracket node seg <;> rw [hb] at he
    · simp only [Except.error.injEq] at he
      exact ⟨rebindName seg, he.symm⟩
    · simp at he

theorem resolveSegs_error_shape (segs : List String) :
    ∀ (node : ParamNode) (e : ResolveErr),
      resolveSegs node segs = .error e → ∃ s, e = .parameterNotFound s := by
  induction segs with
  | nil =>
    intro node e he
    simp [resolveSegs] at he
  | cons s t ih =>
    intro node e he
    unfold resolveSegs at he
    cases hr : resolveSeg node s <;> rw [hr] at he
    · simp only [Except.error.injEq] at he
      exact he ▸ resolveSeg_error_shape node s _ hr
    · exact ih _ e he

/-- C8: evaluating `modifier_fn` path resolution, a malformed bracket segment
is reported as `Could not find the parameter (failed at ...)` - the
ParameterNotFound error - and no path ever surfaces the
`Invalid bracket syntax` error, because the outer bare `except:` of
reforms.py line 102 catches the ValueError raised by the inner bracket
handler and replaces it. -/
theorem c8_error_taxonomy :
    resolveResultErr testTree "tax.brackets[x].rate" =
      some (.parameterNotFound "brackets") ∧
    ∀ (tree : ParamNode) (parameter : String),
      resolveResultErr tree parameter ≠ some .invalidSyntax := by
  refine ⟨by decide, ?_⟩
  intro tree parameter hcontra
  unfold resolveResultErr at hcontra
  cases hr : resolveParam tree parameter <;> rw [hr] at hcontra
  · simp only [Option.some.injEq] at hcontra
    obtain ⟨s, hs⟩ := resolveSegs_error_shape _ tree _ hr
    rw [hs] at hcontra
    cases hcontra
  · simp at hcontra

theorem c8_error_taxonomy_witness :
    resolveResultErr testTree "tax.nothere.rate" ≠ some ResolveErr.invalidSyntax :=
  c8_error_taxonomy.2 testTree "tax.nothere.rate"

/-! ### Association-list and dict-merge lemmas for the household walker -/

theorem lookupA_append {α : Type} (xs ys : List (String × α)) (k : String) :
    lookupA (xs ++ ys) k =
      match lookupA xs k with
      | some a => some a
      | none => lookupA ys k := by
  induction xs with
  | nil => rfl
  | cons kv t ih => by_cases h : kv.1 = k <;> simp [lookupA, h, ih]

theorem lookupA_mapKeyed {α β : Type} (g : String → α → β) (l : List (String × α)) (k : String) :
    lookupA (l.map fun ka => (ka.1, g ka.1 ka.2)) k = (lookupA l k).map (g k) := by
  induction l with
  | nil => rfl
  | cons kv t ih => by_cases h : kv.1 = k <;> simp [lookupA, h, ih]

theorem lookupA_mapSnd {α β : Type} (g : α → β) (l : List (String × α)) (k : String) :
    lookupA (l.map fun ka => (ka.1, g ka.2)) k = (lookupA l k).map g := by
  induction l with
  | nil => rfl
  | cons kv t ih => by_cases h : kv.1 = k <;> simp [lookupA, h, ih]

theorem lookupA_filter_key {α : Type} (q : String × α → Bool) (l : List (String × α)) (k : String)
    (hq : ∀ a, q (k, a) = true) :
    lookupA (l.filter q) k = lookupA l k := by
  induction l with
  | nil => rfl
  | cons kv t ih =>
    by_cases h : kv.1 = k
    · have hkv : q kv = true := by
        have hq2 := hq kv.2
        rwa [← h, Prod.mk.eta] at hq2
      simp [List.filter_cons, hkv, lookupA, h]
    · cases hqv : q kv <;> simp [List.filter_cons, hqv, lookupA, h, ih]

theorem lookupA_mergeAssoc {α β : Type} (m : α → β → α) (inj : β → α)
    (dst : List (String × α)) (src : List (String × β)) (k : String) :
    lookupA (mergeAssoc m inj dst src) k =
      match lookupA dst k with
      | some a => some (mergeVal m src k a)
      | none => (lookupA src k).map inj := by
  unfold mergeAssoc
  rw [lookupA_append, lookupA_mapKeyed (mergeVal m src) dst k]
  cases hdst : lookupA dst k with
  | some a => simp
  | none =>
    rw [lookupA_mapSnd, lookupA_filter_key]
    · simp
    · intro b
      simp [hdst]

theorem lookupA_injPeriod (r : RPeriodMap) (k : String) :
    lookupA (injPeriod r) k = (lookupA r k).map some := by
  unfold injPeriod
  exact lookupA_mapSnd some r k

theorem lookupA_injVar (r : RVarMap) (k : String) :
    lookupA (injVar r) k = (lookupA r k).map injPeriod := by
  unfold injVar
  exact lookupA_mapSnd injPeriod r k

theorem lookupA_injEntity (r : REntityMap) (k : String) :
    lookupA (injEntity r) k = (lookupA r k).map injVar := by
  unfold injEntity
  exact lookupA_mapSnd injVar r k

theorem chainP_merge (pm : PeriodMap) (rpm : RPeriodMap) (per : String) :
    lookupA (mergePeriod pm rpm) per =
      match lookupA rpm per with
      | some v => some (some v)
      | none => lookupA pm per := by
  unfold mergePeriod
  rw [lookupA_mergeAssoc]
  cases hd : lookupA pm per <;> cases hs : lookupA rpm per <;> simp [mergeVal, hs]

theorem chainV_merge (vm : VarMap) (rvm : RVarMap) (v per : String) :
    ((lookupA (mergeVar vm rvm) v).bind fun pm => lookupA pm per) =
      (match (lookupA rvm v).bind fun rpm => lookupA rpm per with
      | some w => some (some w)
      | none => (lookupA vm v).bind fun pm => lookupA pm per) := by
  unfold mergeVar
  rw [lookupA_mergeAssoc]
  cases hd : lookupA vm v with
  | none =>
    cases hs : lookupA rvm v with
    | none => simp
    | some rpm =>
      simp only [Option.map_some', Option.some_bind]
      rw [lookupA_injPeriod]
      cases hp : lookupA rpm per <;> simp
  | some pm =>
    cases hs : lookupA rvm v with
    | none => simp [mergeVal, hs]
    | some rpm =>
      simp only [Option.some_bind]
      rw [show mergeVal mergePeriod rvm v pm = mergePeriod pm rpm by simp [mergeVal, hs]]
      rw [chainP_merge]

theorem chainE_merge (em : EntityMap) (rem : REntityMap) (i v per : String) :
    ((lookupA (mergeEntity em rem) i).bind fun vm =>
        (lookupA vm v).bind fun pm => lookupA pm per) =
      (match (lookupA rem i).bind fun rvm =>
          (lookupA rvm v).bind fun rpm => lookupA rpm per with
      | some w => some (some w)
      | none => (lookupA em i).bind fun vm =>
          (lookupA vm v).bind fun pm => lookupA pm per) := by
  unfold mergeEntity
  rw [lookupA_mergeAssoc]
  cases hd : lookupA em i with
  | none =>
    cases hs : lookupA rem i with
    | none => simp
    | some rvm =>
      simp only [Option.map_some', Option.some_bind]
      rw [lookupA_injVar]
      cases hv : lookupA rvm v with
      | none => simp
      | some rpm =>
        simp only [Option.map_some', Option.some_bind]
        rw [lookupA_injPeriod]
        cases hp : lookupA rpm per <;> simp
  | some vm =>
    cases hs : lookupA rem i with
    | none => simp [mergeVal, hs]
    | some rvm =>
      simp only [Option.some_bind]
      rw [show mergeVal mergeVar rem i vm = mergeVar vm rvm by simp [mergeVal, hs]]
      rw [chainV_merge]

/-- Per-path effect of `dpath.util.merge(params["household"], computation_results)`:
if the results document holds a value at the path, the merged document holds
that value; otherwise the merged document agrees with the original. -/
theorem lookupHH_merge (hh : Household) (res : CompResults) (p : Path4) :
    lookupHH (mergeHousehold hh res) p =
      match lookupRes res p with
      | some v => some (some v)
      | none => lookupHH hh p := by
  unfold lookupHH lookupRes mergeHousehold
  rw [lookupA_mergeAssoc]
  cases hd : lookupA hh p.entity_plural with
  | none =>
    cases hs : lookupA res p.entity_plural with
    | none => simp
    | some rem =>
      simp only [Option.map_some', Option.some_bind]
      rw [lookupA_injEntity]
      cases hi : lookupA rem p.entity_id with
      | none => simp
      | some rvm =>
        simp only [Option.map_some', Option.some_bind]
        rw [lookupA_injVar]
        cases hv : lookupA rvm p.variable_name with
        | none => simp
        | some rpm =>
          simp only [Option.map_some', Option.some_bind]
          rw [lookupA_injPeriod]
          cases hp : lookupA rpm p.period <;> simp
  | some em =>
    cases hs : lookupA res p.entity_plural with
    | none => simp [mergeVal, hs]
    | some rem =>
      simp only [Option.some_bind]
      rw [show mergeVal mergeEntity res p.entity_plural em = mergeEntity em rem by
        simp [mergeVal, hs]]
      rw [chainE_merge]

/-! ### Staged computation results and the walker loop -/

theorem lookupA_upsert_self {α : Type} (l : List (String × α)) (k : String) (f : α → α) (d : α) :
    lookupA (upsertA l k f d) k = some (f ((lookupA l k).getD d)) := by
  induction l with
  | nil => simp [upsertA, lookupA]
  | cons kv t ih => by_cases h : kv.1 = k <;> simp [upsertA, lookupA, h, ih]

theorem lookupA_upsert_other {α : Type} (l : List (String × α)) (k q : String) (f : α → α)
    (d : α) (h : q ≠ k) : lookupA (upsertA l k f d) q = lookupA l q := by
  induction l with
  | nil => simp [upsertA, lookupA, Ne.symm h]
  | cons kv t ih =>
    by_cases hk : kv.1 = k
    · have hkq : kv.1 ≠ q := by rw [hk]; exact Ne.symm h
      simp [upsertA, lookupA, hk, hkq, Ne.symm h]
    · by_cases hq : kv.1 = q <;> simp [upsertA, lookupA, hk, hq, ih, h]

theorem lookupRes_newPath_self (res : CompResults) (p : Path4) (v : HVal) :
    lookupRes (newPath res p v) p = some v := by
  simp [newPath, lookupRes, lookupA_upsert_self]

theorem lookupRes_newPath_other (res : CompResults) (p q : Path4) (v : HVal) (hpq : q ≠ p) :
    lookupRes (newPath res p v) q = lookupRes res q := by
  unfold newPath lookupRes
  by_cases h1 : q.entity_plural = p.entity_plural
  · rw [h1, lookupA_upsert_self]
    simp only [Option.some_bind]
    by_cases h2 : q.entity_id = p.entity_id
    · rw [h2, lookupA_upsert_self]
      simp only [Option.some_bind]
      by_cases h3 : q.variable_name = p.variable_name
      · rw [h3, lookupA_upsert_self]
        simp only [Option.some_bind]
        by_cases h4 : q.period = p.period
        · exfalso
          apply hpq
          cases p
          cases q
          simp_all
        · rw [lookupA_upsert_other _ _ _ _ _ h4]
          cases hX : lookupA res p.entity_plural with
          | none => simp [lookupA, hX]
          | some em =>
            cases hY : lookupA em p.entity_id with
            | none => simp [lookupA, hX, hY]
            | some vm =>
              cases hZ : lookupA vm p.variable_name with
              | none => simp [lookupA, hX, hY, hZ]
              | some pm => simp [hX, hY, hZ]
      · rw [lookupA_upsert_other _ _ _ _ _ h3]
        cases hX : lookupA res p.entity_plural with
        | none => simp [lookupA, hX]
        | some em =>
          cases hY : lookupA em p.entity_id with
          | none => simp [lookupA, hX, hY]
          | some vm => simp [hX, hY]
    · rw [lookupA_upsert_other _ _ _ _ _ h2]
      cases hX : lookupA res p.entity_plural with
      | none => simp [lookupA, hX]
      | some em => simp [hX]
  · rw [lookupA_upsert_other _ _ _ _ _ h1]

theorem lookupRes_nil (q : Path4) : lookupRes [] q = none := rfl

/-- Any failure inside the walker loop leaves the household document exactly
as it was when the loop started: the loop body writes only into the staged
`computation_results`. -/
theorem walkerLoop_error_spec (sys : CountrySystem) (sim : Simulation) (ps : List Path4) :
    ∀ (st : Household × CompResults) (e : Path4 × Household),
      walkerLoop sys sim ps st = .error e → e.2 = st.1 := by
  induction ps with
  | nil =>
    intro st e he
    simp [walkerLoop] at he
  | cons p t ih =>
    intro st e he
    obtain ⟨e1, e2⟩ := e
    cases hc : computeOne sys sim p with
    | none =>
      simp [walkerLoop, walkerStep, hc] at he
      exact he.2.symm
    | some v =>
      simp only [walkerLoop, walkerStep, hc] at he
      exact ih (st.1, newPath st.2 p v) (e1, e2) he

/-- A successful walker loop keeps the household untouched and stages, for
every requested path, exactly the computed value; paths never requested are
absent from the staged results. -/
theorem walkerLoop_ok_spec (sys : CountrySystem) (sim : Simulation) (ps : List Path4) :
    ∀ (hh : Household) (res : CompResults) (st' : Household × CompResults),
      walkerLoop sys sim ps (hh, res) = .ok st' →
      st'.1 = hh ∧
      (∀ q ∈ ps, ∃ v, computeOne sys sim q = some v ∧ lookupRes st'.2 q = some v) ∧
      (∀ q, q ∉ ps → lookupRes st'.2 q = lookupRes res q) := by
  induction ps with
  | nil =>
    intro hh res st' h
    obtain ⟨hh', res'⟩ := st'
    simp only [walkerLoop, Except.ok.injEq, Prod.mk.injEq] at h
    obtain ⟨ha, hb⟩ := h
    subst ha
    subst hb
    refine ⟨rfl, ?_, fun q _ => rfl⟩
    intro q hq
    exact absurd hq (List.not_mem_nil q)
  | cons p t ih =>
    intro hh res st' h
    cases hc : computeOne sys sim p with
    | none => simp [walkerLoop, walkerStep, hc] at h
    | some v =>
      simp only [walkerLoop, walkerStep, hc] at h
      obtain ⟨h1, h2, h3⟩ := ih hh (newPath res p v) st' h
      refine ⟨h1, ?_, ?_⟩
      · intro q hq
        rcases List.mem_cons.mp hq with rfl | hqt
        · by_cases hqt2 : q ∈ t
          · exact h2 q hqt2
          · refine ⟨v, hc, ?_⟩
            rw [h3 q hqt2, lookupRes_newPath_self]
        · exact h2 q hqt
      · intro q hq
        have hqp : q ≠ p := fun he => hq (he ▸ List.mem_cons_self p t)
        have hqt : q ∉ t := fun hm => hq (List.mem_cons_of_mem p hm)
        rw [h3 q hqt, lookupRes_newPath_other res p q v hqp]

theorem lookupA_mem {α : Type} (l : List (String × α)) (k : String) (a : α)
    (h : lookupA l k = some a) : (k, a) ∈ l := by
  induction l with
  | nil => simp [lookupA] at h
  | cons kv t ih =>
    simp only [lookupA] at h
    by_cases hk : kv.1 = k
    · rw [if_pos hk] at h
      injection h with h2
      exact List.mem_cons.mpr (Or.inl (by rw [← hk, ← h2]))
    · rw [if_neg hk] at h
      exact List.mem_cons_of_mem _ (ih h)

theorem mem_lookupA {α : Type} (l : List (String × α)) (k : String) (a : α)
    (hnd : NodupKeys l) (h : (k, a) ∈ l) : lookupA l k = some a := by
  induction l with
  | nil => cases h
  | cons kv t ih =>
    rw [List.mem_cons] at h
    simp only [lookupA]
    rcases h with heq | hmem
    · rw [← heq]
      simp
    · have hk : kv.1 ≠ k := by
        intro hcontra
        have hmap : k ∈ t.map Prod.fst := List.mem_map.mpr ⟨(k, a), hmem, rfl⟩
        have hnd2 := hnd
        unfold NodupKeys at hnd2
        rw [List.map_cons, List.nodup_cons] at hnd2
        exact hnd2.1 (hcontra ▸ hmap)
      rw [if_neg hk]
      apply ih ?_ hmem
      unfold NodupKeys at hnd ⊢
      rw [List.map_cons, List.nodup_cons] at hnd
      exact hnd.2

/-- Every null depth-4 leaf is discovered by the dpath search. -/
theorem lookupHH_some_none_mem (hh : Household) (p : Path4)
    (h : lookupHH hh p = some none) : p ∈ requestedComputations hh := by
  unfold lookupHH at h
  cases hE : lookupA hh p.entity_plural with
  | none => rw [hE] at h; simp at h
  | some em =>
    rw [hE] at h
    simp only [Option.some_bind] at h
    cases hI : lookupA em p.entity_id with
    | none => rw [hI] at h; simp at h
    | some vm =>
      rw [hI] at h
      simp only [Option.some_bind] at h
      cases hV : lookupA vm p.variable_name with
      | none => rw [hV] at h; simp at h
      | some pm =>
        rw [hV] at h
        simp only [Option.some_bind] at h
        unfold requestedComputations
        rw [List.mem_flatMap]
        refine ⟨(p.entity_plural, em), lookupA_mem _ _ _ hE, ?_⟩
        rw [List.mem_flatMap]
        refine ⟨(p.entity_id, vm), lookupA_mem _ _ _ hI, ?_⟩
        rw [List.mem_flatMap]
        refine ⟨(p.variable_name, pm), lookupA_mem _ _ _ hV, ?_⟩
        rw [List.mem_map]
        refine ⟨(p.period, none), ?_, rfl⟩
        rw [List.mem_filter]
        exact ⟨lookupA_mem _ _ _ h, rfl⟩

/-- Every path produced by the dpath search is a null depth-4 leaf of the
(well-formed) household document. -/
theorem mem_requested_lookupHH (hh : Household) (p : Path4) (hwf : WFHousehold hh)
    (h : p ∈ requestedComputations hh) : lookupHH hh p = some none := by
  unfold requestedComputations at h
  rw [List.mem_flatMap] at h
  obtain ⟨eem, heem, h⟩ := h
  rw [List.mem_flatMap] at h
  obtain ⟨ivm, hivm, h⟩ := h
  rw [List.mem_flatMap] at h
  obtain ⟨vpm, hvpm, h⟩ := h
  rw [List.mem_map] at h
  obtain ⟨kv, hkv, hp⟩ := h
  rw [List.mem_filter] at hkv
  obtain ⟨hkvmem, hkvnone⟩ := hkv
  obtain ⟨hnd1, hrest⟩ := hwf
  obtain ⟨hnd2, hrest2⟩ := hrest eem heem
  obtain ⟨hnd3, hrest3⟩ := hrest2 ivm hivm
  have hnd4 := hrest3 vpm hvpm
  have hkvn : kv.2 = none := Option.isNone_iff_eq_none.mp hkvnone
  subst hp
  unfold lookupHH
  dsimp only
  rw [mem_lookupA hh eem.1 eem.2 hnd1 (by rw [Prod.mk.eta]; exact heem)]
  simp only [Option.some_bind]
  rw [mem_lookupA eem.2 ivm.1 ivm.2 hnd2 (by rw [Prod.mk.eta]; exact hivm)]
  simp only [Option.some_bind]
  rw [mem_lookupA ivm.2 vpm.1 vpm.2 hnd3 (by rw [Prod.mk.eta]; exact hvpm)]
  simp only [Option.some_bind]
  rw [← hkvn]
  exact mem_lookupA vpm.2 kv.1 kv.2 hnd4 (by rw [Prod.mk.eta]; exact hkvmem)

/-- C4: for every well-formed household document and simulation for which
`calculate` succeeds, every non-null leaf of the input document is unchanged
in the result (and no sibling key is dropped: paths absent from the input
stay absent), and every null depth-4 leaf is replaced with the value computed
and converted according to the variable's declared value kind. -/
theorem c4_walker_fill (sys : CountrySystem) (sim : Simulation) (hh out : Household)
    (hwf : WFHousehold hh) (hok : calculate sys sim hh = .ok out) :
    (∀ p val, lookupHH hh p = some (some val) → lookupHH out p = some (some val)) ∧
    (∀ p, lookupHH hh p = some none →
      ∃ v, computeOne sys sim p = some v ∧ lookupHH out p = some (some v)) ∧
    (∀ p, lookupHH hh p = none → lookupHH out p = none) := by
  unfold calculate at hok
  cases hw : walkerLoop sys sim (requestedComputations hh) (hh, []) with
  | error e =>
    rw [hw] at hok
    simp at hok
  | ok st =>
    rw [hw] at hok
    injection hok with hok
    obtain ⟨h1, h2, h3⟩ := walkerLoop_ok_spec sys sim _ hh [] st hw
    subst hok
    rw [h1]
    refine ⟨?_, ?_, ?_⟩
    · intro p val hval
      have hnotmem : p ∉ requestedComputations hh := by
        intro hmem
        have hcontr := mem_requested_lookupHH hh p hwf hmem
        rw [hval] at hcontr
        simp at hcontr
      have hres : lookupRes st.2 p = none := by
        rw [h3 p hnotmem]
        rfl
      rw [lookupHH_merge, hres]
      exact hval
    · intro p hval
      have hmem := lookupHH_some_none_mem hh p hval
      obtain ⟨v, hcv, hlres⟩ := h2 p hmem
      refine ⟨v, hcv, ?_⟩
      rw [lookupHH_merge, hlres]
    · intro p hnone
      have hnotmem : p ∉ requestedComputations hh := by
        intro hmem
        have hcontr := mem_requested_lookupHH hh p hwf hmem
        rw [hnone] at hcontr
        simp at hcontr
      have hres : lookupRes st.2 p = none := by
        rw [h3 p hnotmem]
        rfl
      rw [lookupHH_merge, hres]
      exact hnone

theorem c4_walker_fill_witness :
    WFHousehold hhW ∧ calculate sysW simW hhW = .ok outW ∧
    ((∀ p val, lookupHH hhW p = some (some val) → lookupHH outW p = some (some val)) ∧
     (∀ p, lookupHH hhW p = some none →
       ∃ v, computeOne sysW simW p = some v ∧ lookupHH outW p = some (some v)) ∧
     (∀ p, lookupHH hhW p = none → lookupHH outW p = none)) :=
  ⟨by decide, rfl, c4_walker_fill sysW simW hhW outW (by decide) rfl⟩

/-- C6: if any requested computation fails, `calculate` raises without
writing any computed value into the household document: the error carries
the document exactly as it was passed in, because results are staged
separately and merged only after every computation has succeeded. -/
theorem c6_walker_atomicity (sys : CountrySystem) (sim : Simulation) (hh : Household)
    (e : Path4 × Household) (h : calculate sys sim hh = .error e) : e.2 = hh := by
  unfold calculate at h
  cases hw : walkerLoop sys sim (requestedComputations hh) (hh, []) with
  | error e2 =>
    rw [hw] at h
    injection h with h2
    exact h2 ▸ walkerLoop_error_spec sys sim _ (hh, []) e2 hw
  | ok st =>
    rw [hw] at h
    simp at h

theorem c6_walker_atomicity_witness :
    calculate sysW simF hhF =
      .error (⟨"people", "1", "unknown_var", "2023"⟩, hhF) ∧
    ((⟨"people", "1", "unknown_var", "2023"⟩ : Path4), hhF).2 = hhF :=
  ⟨rfl, c6_walker_atomicity sysW simF hhF _ rfl⟩

/-- C5: inside `calculate`, an extracted per-entity sequence result of length
2001 is collapsed to the single-entry mapping from the period to the last
element of the sequence, while a sequence of length exactly 2000 is written
back untouched. -/
theorem c5_truncation (period : String) (xs ys : List ℚ)
    (h1 : xs.length = 2001) (h2 : ys.length = 2000) :
    truncateResult period (.hlist xs) = .hdict period (xs.getLastD 0) ∧
    truncateResult period (.hlist ys) = .hlist ys := by
  constructor
  · have hgt : xs.length > 2000 := by omega
    simp [truncateResult, hgt]
  · have hle : ¬ (ys.length > 2000) := by omega
    simp [truncateResult, hle]

theorem c5_truncation_witness :
    (List.replicate 2001 (0 : ℚ)).length = 2001 ∧
    (List.replicate 2000 (0 : ℚ)).length = 2000 ∧
    (truncateResult "2021" (.hlist (List.replicate 2001 (0 : ℚ))) =
      .hdict "2021" ((List.replicate 2001 (0 : ℚ)).getLastD 0) ∧
     truncateResult "2021" (.hlist (List.replicate 2000 (0 : ℚ))) =
      .hlist (List.replicate 2000 (0 : ℚ))) :=
  ⟨by rw [List.length_replicate], by rw [List.length_replicate],
   c5_truncation "2021" _ _ (by rw [List.length_replicate]) (by rw [List.length_replicate])⟩

/-- C7: the period of the edit generated by `parametric` without an explicit
period is the literal `year:2015:20`, which covers the twenty years 2015
through 2034 - not a ten-year window through 2025 as the claim (and the
function's own docstring at reforms.py line 81) states. -/
theorem c7_default_period_divergence :
    parametric_default_period = "year:2015:20" ∧
    parametric_edit testTree "tax.rate" (3 / 10) =
      .ok ⟨"year:2015:20", 3 / 10⟩ ∧
    periodYears parametric_default_period = some (List.range' 2015 20) ∧
    (List.range' 2015 20).length = 20 ∧
    2034 ∈ List.range' 2015 20 ∧
    ¬ (2034 ≤ 2025) ∧
    (List.range' 2015 20).length ≠ 10 := by
  exact ⟨rfl, rfl, by decide, by decide, by decide, by decide, by decide⟩

end PE
